import Mathlib

set_option maxHeartbeats 1000000

/-
Verification development for the Companion Vision audio pipeline
(main/wav_player.c, main/embedded_audio.c, main/main.c).

The C sources are embedded shallowly:
* machine integers become Nat (all quantities involved are non-negative;
  guards in the source prevent the subtractions used here from underflowing);
* the fixed stream buffer is modelled as a total map from 16-bit-slot index
  to sample value, so that out-of-range stores remain observable;
* calls into ESP-IDF / FreeRTOS (fread, xRingbufferSend, xQueueSend,
  i2s_channel_write) are modelled by their documented behaviour, made
  explicit at each definition.
-/

/-- Result codes (`esp_err_t`) returned by the functions modelled here. -/
inductive EspErr where
  | ok
  | errNoMem
  | errInvalidArg
  | errInvalidState
  | errNotFound
  deriving DecidableEq, Repr

/-- Structure `wav_header_t` from wav_player.h: the packed 44-byte RIFF/WAVE header.
The three 4-byte tag fields are byte lists; the numeric fields are the
little-endian values the C code reads from them. -/
structure wav_header_t where
  riff : List Nat
  file_size : Nat
  wave : List Nat
  fmt : List Nat
  fmt_size : Nat
  audio_format : Nat
  num_channels : Nat
  sample_rate : Nat
  byte_rate : Nat
  block_align : Nat
  bits_per_sample : Nat
  data : List Nat
  data_size : Nat
  deriving DecidableEq, Repr

/-- ASCII bytes of "RIFF". -/
def RIFF_TAG : List Nat := [82, 73, 70, 70]

/-- ASCII bytes of "WAVE". -/
def WAVE_TAG : List Nat := [87, 65, 86, 69]

/-- ASCII bytes of "data". -/
def DATA_TAG : List Nat := [100, 97, 116, 97]

/-- Header validation in wav_player_play_file (lines 144-146):
`strncmp(header.riff, "RIFF", 4) == 0 && strncmp(header.wave, "WAVE", 4) == 0
&& strncmp(header.data, "data", 4) == 0`.  None of the three expected tags
contains a NUL, so each strncmp test is exact equality of the 4 bytes. -/
def wav_header_valid (h : wav_header_t) : Bool :=
  h.riff == RIFF_TAG && h.wave == WAVE_TAG && h.data == DATA_TAG

/-- One iteration of the in-place mono→stereo loop in wav_player_play_file
(lines 179-183): `sample = ((uint16_t*)buffer)[i];
((uint16_t*)buffer)[i*2] = sample; ((uint16_t*)buffer)[i*2+1] = sample;`.
The stream buffer is a total map from 16-bit-slot index to sample value, so
stores beyond the 4096-byte allocation (slot index 2048 and above) remain
visible instead of being silently clipped. -/
def upmix_iter (buf : Nat → Nat) (i : Nat) : Nat → Nat :=
  fun j => if j = 2 * i then buf i else if j = 2 * i + 1 then buf i else buf j

/-- The full loop `for (int i = bytes_read/2 - 1; i >= 0; i--)`:
`upmix_rec K buf` runs the iteration for slot indices K-1 down to 0 on the
same buffer, exactly the descending in-place order of the source. -/
def upmix_rec : Nat → (Nat → Nat) → (Nat → Nat)
  | 0, buf => buf
  | k + 1, buf => upmix_rec k (upmix_iter buf k)

/-- Slots at index `2*k` and beyond are never written by `upmix_rec k`. -/
theorem upmix_rec_untouched (k : Nat) (buf : Nat → Nat) (j : Nat) (hj : 2 * k ≤ j) :
    upmix_rec k buf j = buf j := by
  induction k generalizing buf with
  | zero => rfl
  | succ k ih =>
    show upmix_rec k (upmix_iter buf k) j = buf j
    rw [ih (upmix_iter buf k) (by omega)]
    unfold upmix_iter
    rw [if_neg (by omega), if_neg (by omega)]

/-- Net effect of the descending in-place loop: for every source slot
`i < K`, the expanded buffer holds the original sample `buf i` at slots
`2*i` and `2*i+1`.  The descending order guarantees that iteration `i`
still reads the original `buf i`: all earlier iterations wrote only slots
`≥ 2*i+2`. -/
theorem upmix_rec_spec (k : Nat) (buf : Nat → Nat) (i : Nat) (hi : i < k) :
    upmix_rec k buf (2 * i) = buf i ∧ upmix_rec k buf (2 * i + 1) = buf i := by
  induction k generalizing buf with
  | zero => omega
  | succ k ih =>
    show upmix_rec k (upmix_iter buf k) (2 * i) = buf i ∧
         upmix_rec k (upmix_iter buf k) (2 * i + 1) = buf i
    rcases Nat.lt_or_ge i k with hik | hik
    · have h2 := ih (upmix_iter buf k) hik
      have hbk : upmix_iter buf k i = buf i := by
        unfold upmix_iter
        rw [if_neg (by omega), if_neg (by omega)]
      rw [h2.1, h2.2, hbk]
      exact ⟨rfl, rfl⟩
    · have hik' : i = k := by omega
      subst hik'
      constructor
      · rw [upmix_rec_untouched i (upmix_iter buf i) (2 * i) (by omega)]
        unfold upmix_iter
        rw [if_pos rfl]
      · rw [upmix_rec_untouched i (upmix_iter buf i) (2 * i + 1) (by omega)]
        unfold upmix_iter
        rw [if_neg (by omega), if_pos rfl]

/-- Bytes of the stream buffer offered to the ring buffer after the mono
branch ran: `bytes_read *= 2` bytes from the buffer base.  Byte `2*j` of the
buffer is the low byte of 16-bit slot `j` and byte `2*j+1` its high byte,
matching the little-endian `uint16_t` view the loop uses.  A slot the loop
never wrote and that lies beyond the incoming chunk holds unspecified stale
memory in C; it is modelled as 0 (such bytes exist only for odd `bs.length`,
which cannot arise from 16-bit sample data). -/
def mono_expand (bs : List Nat) : List Nat :=
  let out := upmix_rec (bs.length / 2) (fun i => bs.getD (2 * i) 0 + 256 * bs.getD (2 * i + 1) 0)
  (List.range (2 * bs.length)).map fun j => if j % 2 = 0 then out (j / 2) % 256 else out (j / 2) / 256

theorem mono_expand_length (bs : List Nat) : (mono_expand bs).length = 2 * bs.length := by
  simp [mono_expand]

/-- Constant `WAV_BUFFER_SIZE` from wav_player.c line 21. -/
def WAV_BUFFER_SIZE : Nat := 4096

/-- Constant `I2S_CHANNELS` from wav_player.c line 19. -/
def I2S_CHANNELS : Nat := 2

/-- Bookkeeping of one iteration of the streaming loop in
wav_player_play_file: `src` the bytes fread returned this round, `sent` the
bytes offered to the ring buffer (after the mono branch, if it ran), `inc`
the amount added to `total_read`. -/
structure StreamBlock where
  src : List Nat
  sent : List Nat
  inc : Nat
  deriving DecidableEq, Repr

/-- The streaming loop of wav_player_play_file (lines 160-193).  `file` is
the payload that follows the 44-byte header, so `fread(buffer, 1, to_read,
file)` returns the next `min to_read file.length` bytes and advances the
stream — `chunk := file.take to_read`, recursing on `file.drop
chunk.length`.  A zero-byte read is the "Reached end of file unexpectedly"
break.  Each offered block is recorded whether or not the 100 ms
`xRingbufferSend` wait succeeds; the loop's own control flow (and
`total_read`) is the same in both cases. -/
def stream_blocks (num_channels : Nat) (data_size : Nat) (file : List Nat)
    (total_read : Nat) : List StreamBlock :=
  if total_read < data_size then
    let to_read := min WAV_BUFFER_SIZE (data_size - total_read)
    let chunk := file.take to_read
    if h0 : chunk.length = 0 then []
    else
      let sent := if num_channels = 1 ∧ I2S_CHANNELS = 2 then mono_expand chunk else chunk
      let inc := sent.length / (if num_channels = 1 ∧ I2S_CHANNELS = 2 then 2 else 1)
      ⟨chunk, sent, inc⟩ ::
        stream_blocks num_channels data_size (file.drop chunk.length) (total_read + inc)
  else []
termination_by file.length
decreasing_by
  unfold_let chunk to_read at h0 ⊢
  simp only [List.length_drop, List.length_take] at h0 ⊢
  omega

theorem stream_blocks_nil (c ds : Nat) (file : List Nat) (tr : Nat) (h : ¬ tr < ds) :
    stream_blocks c ds file tr = [] := by
  rw [stream_blocks, if_neg h]

theorem stream_blocks_cons (c ds : Nat) (file : List Nat) (tr : Nat) (h : tr < ds)
    (h0 : ¬ (file.take (min WAV_BUFFER_SIZE (ds - tr))).length = 0) :
    stream_blocks c ds file tr =
      ⟨file.take (min WAV_BUFFER_SIZE (ds - tr)),
       if c = 1 ∧ I2S_CHANNELS = 2 then mono_expand (file.take (min WAV_BUFFER_SIZE (ds - tr)))
         else file.take (min WAV_BUFFER_SIZE (ds - tr)),
       (if c = 1 ∧ I2S_CHANNELS = 2 then mono_expand (file.take (min WAV_BUFFER_SIZE (ds - tr)))
         else file.take (min WAV_BUFFER_SIZE (ds - tr))).length /
         (if c = 1 ∧ I2S_CHANNELS = 2 then 2 else 1)⟩ ::
      stream_blocks c ds (file.drop (file.take (min WAV_BUFFER_SIZE (ds - tr))).length)
        (tr + (if c = 1 ∧ I2S_CHANNELS = 2 then mono_expand (file.take (min WAV_BUFFER_SIZE (ds - tr)))
         else file.take (min WAV_BUFFER_SIZE (ds - tr))).length /
         (if c = 1 ∧ I2S_CHANNELS = 2 then 2 else 1)) := by
  rw [stream_blocks]
  simp only [if_pos h, dif_neg h0]

theorem stream_blocks_nil2 (c ds : Nat) (file : List Nat) (tr : Nat) (h : tr < ds)
    (h0 : (file.take (min WAV_BUFFER_SIZE (ds - tr))).length = 0) :
    stream_blocks c ds file tr = [] := by
  rw [stream_blocks]
  simp only [if_pos h, dif_pos h0]

theorem stream_blocks_inc_src_aux : ∀ (n c ds : Nat) (file : List Nat) (tr : Nat),
    file.length ≤ n →
    (stream_blocks c ds file tr).map (fun b => b.inc) =
      (stream_blocks c ds file tr).map (fun b => b.src.length) := by
  intro n
  induction n with
  | zero =>
    intro c ds file tr hn
    have hfe : file = [] := List.eq_nil_of_length_eq_zero (Nat.le_zero.mp hn)
    subst hfe
    by_cases htr : tr < ds
    · rw [stream_blocks_nil2 c ds [] tr htr (by simp)]
      rfl
    · rw [stream_blocks_nil c ds [] tr htr]
      rfl
  | succ n ih =>
    intro c ds file tr hn
    by_cases htr : tr < ds
    swap
    · rw [stream_blocks_nil c ds file tr htr]
      rfl
    · by_cases h0 : (file.take (min WAV_BUFFER_SIZE (ds - tr))).length = 0
      · rw [stream_blocks_nil2 c ds file tr htr h0]
        rfl
      · rw [stream_blocks_cons c ds file tr htr h0]
        simp only [List.map_cons]
        have hhd :
            (if c = 1 ∧ I2S_CHANNELS = 2 then
                mono_expand (file.take (min WAV_BUFFER_SIZE (ds - tr)))
              else file.take (min WAV_BUFFER_SIZE (ds - tr))).length /
              (if c = 1 ∧ I2S_CHANNELS = 2 then 2 else 1) =
            (file.take (min WAV_BUFFER_SIZE (ds - tr))).length := by
          by_cases hc : c = 1 ∧ I2S_CHANNELS = 2
          · rw [if_pos hc, if_pos hc, mono_expand_length]
            omega
          · rw [if_neg hc, if_neg hc, Nat.div_one]
        rw [hhd]
        have hlen : (file.take (min WAV_BUFFER_SIZE (ds - tr))).length ≤ file.length := by
          simp [List.length_take]
        have hdrop :
            (file.drop (file.take (min WAV_BUFFER_SIZE (ds - tr))).length).length ≤ n := by
          simp only [List.length_drop]
          omega
        rw [ih c ds _ _ hdrop]

theorem stream_blocks_join_aux : ∀ (n ds : Nat) (file : List Nat) (tr : Nat),
    file.length ≤ n → ds - tr ≤ file.length →
    ((stream_blocks 2 ds file tr).map (fun b => b.sent)).flatten = file.take (ds - tr) := by
  intro n
  induction n with
  | zero =>
    intro ds file tr hn hfile
    have hfe : file = [] := List.eq_nil_of_length_eq_zero (Nat.le_zero.mp hn)
    subst hfe
    have htr : ¬ tr < ds := by simp at hfile; omega
    rw [stream_blocks_nil 2 ds [] tr htr]
    simp
  | succ n ih =>
    intro ds file tr hn hfile
    by_cases htr : tr < ds
    swap
    · rw [stream_blocks_nil 2 ds file tr htr]
      have : ds - tr = 0 := by omega
      simp [this]
    · have hwb : WAV_BUFFER_SIZE = 4096 := rfl
      have hlen : (file.take (min WAV_BUFFER_SIZE (ds - tr))).length
          = min WAV_BUFFER_SIZE (ds - tr) := by
        rw [List.length_take]
        omega
      have h0 : ¬ (file.take (min WAV_BUFFER_SIZE (ds - tr))).length = 0 := by
        rw [hlen]
        omega
      rw [stream_blocks_cons 2 ds file tr htr h0]
      have hc : ¬ ((2:Nat) = 1 ∧ I2S_CHANNELS = 2) := by decide
      simp only [if_neg hc, Nat.div_one, List.map_cons, List.flatten_cons, hlen]
      have hrec : ds - (tr + min WAV_BUFFER_SIZE (ds - tr))
          ≤ (file.drop (min WAV_BUFFER_SIZE (ds - tr))).length := by
        simp only [List.length_drop]
        omega
      rw [ih ds _ _ (by simp only [List.length_drop]; omega) hrec]
      rw [← List.take_add]
      congr 1
      omega

/-- The observable module state of wav_player.c: the module-level flag
`is_playing` (line 29) and the byte-runs currently buffered in `ring_buffer`
(line 27), oldest first. -/
structure WavState where
  ring : List (List Nat)
  is_playing : Bool
  deriving DecidableEq, Repr

/-- Query `wav_player_is_playing` (lines 226-228). -/
def wav_player_is_playing (s : WavState) : Bool := s.is_playing

/-- Stop entry `wav_player_stop` (lines 204-224): an early no-op success when not
playing; otherwise clear `is_playing`, drain every item out of the ring
buffer (the receive-with-zero-timeout loop ends exactly when the buffer is
empty) and suspend the playback task. -/
def wav_player_stop (s : WavState) : EspErr × WavState :=
  if s.is_playing = false then (EspErr.ok, s)
  else (EspErr.ok, { ring := [], is_playing := false })

/-- Playback entry `wav_player_play_file` (lines 120-202) on a file that opens and whose
44-byte header reads successfully, leaving `file` as the payload bytes after
the header.  If already playing, `wav_player_stop` runs first.  An invalid
header returns `ESP_ERR_INVALID_ARG` with nothing streamed.  Otherwise
`is_playing` is set and the streaming loop runs; the returned block list
records the loop's iterations, and — when no `xRingbufferSend` wait times
out — the `sent` bytes of each block are exactly what enters the ring
buffer, in order. -/
def wav_player_play_file (h : wav_header_t) (file : List Nat) (s : WavState) :
    EspErr × WavState × List StreamBlock :=
  let s1 := if s.is_playing then (wav_player_stop s).2 else s
  if wav_header_valid h then
    let blocks := stream_blocks h.num_channels h.data_size file 0
    (EspErr.ok, { ring := s1.ring ++ blocks.map (fun b => b.sent), is_playing := true }, blocks)
  else (EspErr.errInvalidArg, s1, [])

/-- One scheduling step of `playback_task` (lines 31-55) under FreeRTOS
semantics.  `xRingbufferReceive(ring_buffer, &item_size, portMAX_DELAY)`
blocks until an item is available and returns NULL only when the wait times
out; `portMAX_DELAY` never times out, so on an empty buffer the call simply
keeps the task blocked — the `item == NULL` branch of the task (lines
49-53, `is_playing = false; vTaskSuspend`) can never execute.  A step with
data writes the oldest item to I2S and returns its slot; a step without
data leaves the state unchanged (the task stays blocked inside the
receive). -/
def playback_task_step (s : WavState) : WavState :=
  match s.ring with
  | _ :: rest => { ring := rest, is_playing := s.is_playing }
  | [] => s

/-- Detection record `ocr_result_t` from ocr_processor.h.  The float confidence is modelled
as a rational; it is never inspected by the code verified here. -/
structure ocr_result_t where
  text : String
  language : String
  confidence : ℚ
  processing_time_ms : Nat
  deriving DecidableEq

/-- Model of `xQueueSend(queue, &item, 0)` on a FreeRTOS queue of the given capacity:
with a zero ticks-to-wait it returns immediately — `pdTRUE` after copying
the item to the back of the queue if a slot is free, `errQUEUE_FULL`
(i.e. not `pdTRUE`) leaving the queue untouched if not. -/
def xQueueSend_nowait {α : Type} (capacity : Nat) (q : List α) (x : α) :
    Bool × List α :=
  if q.length < capacity then (true, q ++ [x]) else (false, q)

/-- Capacity of `ocr_result_queue`: `xQueueCreate(5, sizeof(ocr_result_t))`
in app_main (line 223). -/
def ocr_result_queue_capacity : Nat := 5

/-- The push in camera_task (lines 128-130): offer the result with zero
wait; on failure log "OCR result queue full, dropping result" and continue
— the new result is simply dropped. -/
def camera_task_push (q : List ocr_result_t) (r : ocr_result_t) : List ocr_result_t :=
  (xQueueSend_nowait ocr_result_queue_capacity q r).2

/-- A sound event as observed at the I2S output: a tone of a given frequency
(Hz) and duration (ms), or a silent gap (`vTaskDelay`). -/
inductive AudioEvent where
  | tone (frequency : Nat) (duration_ms : Nat)
  | gap (duration_ms : Nat)
  deriving DecidableEq, Repr

/-- Outcome environment for `embedded_audio_generate_tone` (embedded_audio.c
lines 60-108): the `esp_err_t` its i2s path produces for a given
(frequency, duration) call — `ESP_ERR_INVALID_STATE` when `tx_chan` is
NULL, `ESP_ERR_NO_MEM` when the sample-buffer malloc fails, the error of
`i2s_channel_write` when that write fails, `ESP_OK` otherwise. -/
def ToneEnv : Type := Nat → Nat → EspErr

/-- Synthesis entry `embedded_audio_generate_tone` under an outcome environment: on success
the synthesized tone reaches the I2S output; on any failure the function
returns early (or the write fails) and no tone sounds. -/
def embedded_audio_generate_tone (env : ToneEnv) (frequency duration_ms : Nat) :
    EspErr × List AudioEvent :=
  match env frequency duration_ms with
  | EspErr.ok => (EspErr.ok, [AudioEvent.tone frequency duration_ms])
  | e => (e, [])

/-- The beep loop of `embedded_audio_play` (lines 45-50), iterating `i` from
0 to `pattern_length - 1`: each round calls
`embedded_audio_generate_tone(frequency + i*100, 200)` — discarding its
result — and sleeps 100 ms unless this was the last beep. -/
def embedded_audio_play_loop (env : ToneEnv) (frequency pattern_length : Nat)
    (i : Nat) : List AudioEvent :=
  if i < pattern_length then
    (embedded_audio_generate_tone env (frequency + i * 100) 200).2 ++
      (if i < pattern_length - 1 then [AudioEvent.gap 100] else []) ++
      embedded_audio_play_loop env frequency pattern_length (i + 1)
  else []
termination_by pattern_length - i

/-- Dispatch entry `embedded_audio_play` (lines 26-53): select base frequency and beep
count from the language tag ("hindi" → 600 Hz / 3 beeps, "gujarati" →
1000 Hz / 2 beeps, anything else → 800 Hz / 1 beep), run the beep loop, and
return `ESP_OK` unconditionally — the loop's per-beep results are ignored.
The recognized text takes no part in the selection. -/
def embedded_audio_play (env : ToneEnv) (text language : String) :
    EspErr × List AudioEvent :=
  let sel : Nat × Nat :=
    if language = "hindi" then (600, 3)
    else if language = "gujarati" then (1000, 2)
    else (800, 1)
  (EspErr.ok, embedded_audio_play_loop env sel.1 sel.2 0)

/-- Fallback entry `embedded_audio_beep` (lines 55-58): the generic fallback beep,
`embedded_audio_generate_tone(800, 300)`. -/
def embedded_audio_beep (env : ToneEnv) : EspErr × List AudioEvent :=
  embedded_audio_generate_tone env 800 300

/-- The per-result dispatch in audio_task (main.c lines 143-155): play the
language pattern; if — and only if — `embedded_audio_play` returned an
error, emit the generic fallback beep.  Returns the sequence of audio
events the result produces. -/
def audio_task_handle (env : ToneEnv) (r : ocr_result_t) : List AudioEvent :=
  let res := embedded_audio_play env r.text r.language
  if res.1 ≠ EspErr.ok then res.2 ++ (embedded_audio_beep env).2 else res.2

/-- Sample count computed by `embedded_audio_generate_tone` (line 67):
`(sample_rate * duration_ms) / 1000` with `sample_rate = 44100`; the
generated buffer holds this many stereo sample pairs (left and right equal). -/
def tone_sample_count (duration_ms : Nat) : Nat := 44100 * duration_ms / 1000

/-- The amplitude envelope applied at sample index `i` of `samples` (lines
81-85) to a peak magnitude `a`: `sample * i / (samples/10)` over the first
tenth, `sample * (samples - i) / (samples/10)` over the last tenth, the
sample unchanged in between.  C's division truncates toward zero, so on
magnitudes (the sine factor is floating point; `a` stands for the magnitude
of `sin(...) * 16000` at index `i`) it agrees with Nat division. -/
def tone_envelope (samples i a : Nat) : Nat :=
  if i < samples / 10 then a * i / (samples / 10)
  else if samples - samples / 10 < i then a * (samples - i) / (samples / 10)
  else a

/-- Module-state invariant of wav_player.c: whenever `is_playing` is false
the ring buffer is empty.  It holds at initialization (empty buffer, flag
false) and is preserved by every modelled operation, so every reachable
state satisfies it. -/
def WavInv (s : WavState) : Prop := s.is_playing = false → s.ring = []

theorem wavInv_init : WavInv { ring := [], is_playing := false } := fun _ => rfl

theorem wavInv_stop (s : WavState) (h : WavInv s) : WavInv (wav_player_stop s).2 := by
  unfold wav_player_stop WavInv
  by_cases hp : s.is_playing = false
  · simpa [hp] using h hp
  · simp [hp]

theorem wavInv_play (hdr : wav_header_t) (file : List Nat) (s : WavState)
    (h : WavInv s) : WavInv (wav_player_play_file hdr file s).2.1 := by
  unfold wav_player_play_file
  by_cases hv : wav_header_valid hdr
  · simp [hv, WavInv]
  · by_cases hp : s.is_playing
    · simp [hv, hp, wav_player_stop, WavInv]
    · simpa [hv, hp, WavInv] using h

theorem wavInv_playback_step (s : WavState) (h : WavInv s) :
    WavInv (playback_task_step s) := by
  unfold playback_task_step WavInv
  cases hr : s.ring with
  | nil => simpa [hr] using h
  | cons b rest =>
    intro hp
    have := h hp
    rw [hr] at this
    exact absurd this (by simp)

/-- A playback-task step never changes `is_playing`: the only assignment to
the flag inside the task sits in the `item == NULL` branch, which the
`portMAX_DELAY` receive makes unreachable. -/
theorem playback_task_step_is_playing (s : WavState) :
    (playback_task_step s).is_playing = s.is_playing := by
  unfold playback_task_step
  cases s.ring <;> rfl

/-- Claim C6: with the detection queue already holding its capacity of 5 items,
`xQueueSend(..., 0)` returns immediately with a failure, the queue keeps
exactly its previous contents in the same FIFO order (drop-newest), and
camera_task drops the new result. -/
theorem detection_queue_full_drop_newest (q : List ocr_result_t) (r : ocr_result_t)
    (hfull : q.length = 5) :
    xQueueSend_nowait ocr_result_queue_capacity q r = (false, q) ∧
      camera_task_push q r = q := by
  have hnl : ¬ q.length < ocr_result_queue_capacity := by
    simp [ocr_result_queue_capacity, hfull]
  exact ⟨by simp [xQueueSend_nowait, hnl], by simp [camera_task_push, xQueueSend_nowait, hnl]⟩

theorem detection_queue_full_drop_newest_witness :
    camera_task_push
        (List.replicate 5 ⟨"STOP", "english", 0, 0⟩) ⟨"GO", "hindi", 0, 0⟩ =
      List.replicate 5 ⟨"STOP", "english", 0, 0⟩ :=
  (detection_queue_full_drop_newest _ _ (by simp)).2

/-- Claim C8: from the Idle state, a header whose tag validation fails makes
`wav_player_play_file` return `ESP_ERR_INVALID_ARG` with zero stream-loop
iterations (so zero bytes offered to the ring buffer) and the module state
unchanged — still Idle, ring untouched. -/
theorem invalid_header_rejected (h : wav_header_t) (file : List Nat) (s : WavState)
    (hidle : s.is_playing = false) (hbad : wav_header_valid h = false) :
    wav_player_play_file h file s = (EspErr.errInvalidArg, s, []) ∧
      wav_player_is_playing s = false := by
  refine ⟨?_, hidle⟩
  simp [wav_player_play_file, hidle, hbad]

theorem invalid_header_rejected_witness :
    wav_player_play_file
        ⟨[82, 73, 70, 89], 100, WAVE_TAG, [102, 109, 116, 32], 16, 1, 2, 44100, 176400,
          4, 16, DATA_TAG, 8⟩ [1, 2, 3, 4, 5, 6, 7, 8] ⟨[], false⟩ =
      (EspErr.errInvalidArg, ⟨[], false⟩, []) :=
  (invalid_header_rejected _ _ _ rfl (by decide)).1

/-- Claim C10: `wav_player_stop` is idempotent — the second of two consecutive
stops is a no-op returning the same success — every stop returns `ESP_OK`,
stop in the Idle state changes nothing, and after a stop from any state
satisfying the reachable-state invariant `WavInv` no audio remains queued
in the ring buffer. -/
theorem stop_idempotent (s : WavState) :
    wav_player_stop (wav_player_stop s).2 = (EspErr.ok, (wav_player_stop s).2) ∧
    (wav_player_stop s).1 = EspErr.ok ∧
    (s.is_playing = false → wav_player_stop s = (EspErr.ok, s)) ∧
    (WavInv s → (wav_player_stop s).2.ring = []) := by
  unfold wav_player_stop
  by_cases hp : s.is_playing = false
  · refine ⟨by simp [hp], by simp [hp], fun _ => by simp [hp], fun hinv => ?_⟩
    simp [hp, hinv hp]
  · refine ⟨by simp [hp], by simp [hp], fun h => absurd h hp, fun _ => by simp [hp]⟩

theorem stop_idempotent_witness :
    wav_player_stop (wav_player_stop ⟨[[1, 2]], true⟩).2 =
        (EspErr.ok, (wav_player_stop ⟨[[1, 2]], true⟩).2) ∧
      (wav_player_stop ⟨[[1, 2]], true⟩).2.ring = [] := by
  have h := stop_idempotent ⟨[[1, 2]], true⟩
  exact ⟨h.1, h.2.2.2 (fun hfalse => by simp at hfalse)⟩

/-- Claim C3, failing input: a full 4096-byte mono block (`bytes_read = 4096`,
so `K = bytes_read/2 = 2048` 16-bit source samples).  The in-place
expansion stores sample 2047's value into 16-bit slot `2*2047+1 = 4095`,
i.e. byte indices 8190 and 8191 — far beyond the 4096-byte
`uint8_t buffer[WAV_BUFFER_SIZE]`: the store lands at a byte index that is
not strictly below 4096, a stack buffer overflow.  Witnessed on the buffer
whose slot `j` initially holds `j`: slot 4095 ends up holding 2047. -/
theorem mono_upmix_overflows_buffer :
    upmix_rec 2048 (fun j => j) 4095 = 2047 ∧ ¬ 2 * 4095 < 4096 := by
  constructor
  · have h := (upmix_rec_spec 2048 (fun j => j) 2047 (by omega)).2
    exact h
  · omega

/-- Claim C4: once the payload is exhausted and the ring buffer has been drained,
no sequence of playback-task steps ever clears `is_playing`: the receive
uses `portMAX_DELAY`, so it never returns NULL and the task's
self-suspend/`is_playing = false` branch is unreachable.
`wav_player_is_playing` therefore keeps reporting true forever after a
completed playback with no further call — the engine never returns to
Idle on its own. -/
theorem playback_exhausted_never_idle :
    ∀ n : Nat,
      wav_player_is_playing
        (playback_task_step^[n] { ring := [], is_playing := true }) = true := by
  intro n
  induction n with
  | zero => rfl
  | succ n ih =>
    rw [Function.iterate_succ_apply', wav_player_is_playing,
      playback_task_step_is_playing]
    exact ih

/-- Claim C2: the in-place mono→stereo up-mix duplicates each of the K source
samples — output slot `2*i` and `2*i+1` both hold source sample `i` for
every `i < K` — the block offered to the ring buffer has exactly twice the
source byte count (2K output samples for K source samples), and the amount
the loop adds to `total_read` is the source byte count of each block, not
the doubled output byte count. -/
theorem mono_upmix_duplicates_and_counts_source :
    (∀ (buf : Nat → Nat) (K i : Nat), i < K →
        upmix_rec K buf (2 * i) = buf i ∧ upmix_rec K buf (2 * i + 1) = buf i) ∧
    (∀ bs : List Nat, (mono_expand bs).length = 2 * bs.length) ∧
    (∀ (data_size : Nat) (file : List Nat) (total_read : Nat),
        (stream_blocks 1 data_size file total_read).map (fun b => b.inc) =
          (stream_blocks 1 data_size file total_read).map (fun b => b.src.length)) := by
  refine ⟨fun buf K i hi => upmix_rec_spec K buf i hi, mono_expand_length, ?_⟩
  intro ds file tr
  exact stream_blocks_inc_src_aux file.length 1 ds file tr le_rfl

theorem mono_upmix_duplicates_and_counts_source_witness :
    upmix_rec 2 (fun j => 100 - j) 2 = 99 ∧ upmix_rec 2 (fun j => 100 - j) 3 = 99 := by
  have h := mono_upmix_duplicates_and_counts_source.1 (fun j => 100 - j) 2 1 (by omega)
  exact ⟨h.1, h.2⟩

/-- Claim C1: for a validated stereo header (`num_channels = 2`) declaring `L`
payload bytes, when every `fread` returns the bytes requested (the payload
after the header is at least `L` bytes long) and no ring-buffer offer times
out, the blocks `wav_player_play_file` offers to the ring buffer
concatenate to exactly the first `L` payload bytes — the byte count totals
`L`, nothing is truncated and nothing is duplicated. -/
theorem stereo_play_streams_exact_payload (h : wav_header_t) (file : List Nat)
    (s : WavState) (hv : wav_header_valid h = true) (hch : h.num_channels = 2)
    (hL : h.data_size ≤ file.length) :
    (((wav_player_play_file h file s).2.2).map (fun b => b.sent)).flatten =
        file.take h.data_size ∧
      (((wav_player_play_file h file s).2.2).map (fun b => b.sent.length)).sum =
        h.data_size := by
  have hblocks : (wav_player_play_file h file s).2.2 =
      stream_blocks 2 h.data_size file 0 := by
    rw [← hch]
    simp [wav_player_play_file, hv]
  have hjoin := stream_blocks_join_aux file.length h.data_size file 0 le_rfl
    (by omega)
  rw [Nat.sub_zero] at hjoin
  constructor
  · rw [hblocks, hjoin]
  · have hlen : ((stream_blocks 2 h.data_size file 0).map
        (fun b => b.sent)).flatten.length = (file.take h.data_size).length := by
      rw [hjoin]
    rw [List.length_flatten, List.map_map, List.length_take] at hlen
    rw [hblocks]
    have : (List.length ∘ fun b => b.sent) = fun b : StreamBlock => b.sent.length := rfl
    rw [this] at hlen
    rw [hlen]
    omega

theorem stereo_play_streams_exact_payload_witness :
    (((wav_player_play_file
          ⟨RIFF_TAG, 40, WAVE_TAG, [102, 109, 116, 32], 16, 1, 2, 44100, 176400, 4, 16,
            DATA_TAG, 4⟩ [9, 8, 7, 6] ⟨[], false⟩).2.2).map (fun b => b.sent)).flatten =
      [9, 8, 7, 6] := by
  have h := (stereo_play_streams_exact_payload
    ⟨RIFF_TAG, 40, WAVE_TAG, [102, 109, 116, 32], 16, 1, 2, 44100, 176400, 4, 16,
      DATA_TAG, 4⟩ [9, 8, 7, 6] ⟨[], false⟩ (by decide) rfl (by decide)).1
  rw [h]
  rfl

/-- Claim C5, failing behaviour: `embedded_audio_play` returns `ESP_OK` for every
outcome environment — it discards the result of each
`embedded_audio_generate_tone` call — so the `audio_err != ESP_OK` fallback
branch of audio_task can never run.  With every synthesis call failing
(e.g. `tx_chan` NULL, every call returning `ESP_ERR_INVALID_STATE`), the
dispatch of a result emits no audio event at all: in particular not the
single 800 Hz / 300 ms fallback beep the claim requires. -/
theorem dispatch_fallback_never_fires :
    (∀ (env : ToneEnv) (text language : String),
        (embedded_audio_play env text language).1 = EspErr.ok) ∧
    audio_task_handle (fun _ _ => EspErr.errInvalidState) ⟨"BPM", "english", 0, 0⟩ = [] := by
  constructor
  · intro env text language
    rfl
  · simp [audio_task_handle, embedded_audio_play, embedded_audio_play_loop,
      embedded_audio_generate_tone, embedded_audio_beep]

/-- Claim C7: language-keyed dispatch with every synthesis call succeeding —
"hindi" gives 3 beeps from base 600 Hz, "gujarati" 2 beeps from base
1000 Hz, any other language exactly one 800 Hz beep; beep `i` (0-based) is
a `base + i*100` Hz tone of 200 ms, consecutive beeps are separated by a
100 ms gap, and no gap trails the last beep.  The recognized text never
affects the pattern. -/
theorem dispatch_language_patterns :
    (∀ text : String, (embedded_audio_play (fun _ _ => EspErr.ok) text "hindi").2 =
        [AudioEvent.tone 600 200, AudioEvent.gap 100, AudioEvent.tone 700 200,
         AudioEvent.gap 100, AudioEvent.tone 800 200]) ∧
    (∀ text : String, (embedded_audio_play (fun _ _ => EspErr.ok) text "gujarati").2 =
        [AudioEvent.tone 1000 200, AudioEvent.gap 100, AudioEvent.tone 1100 200]) ∧
    (∀ text language : String, language ≠ "hindi" → language ≠ "gujarati" →
        (embedded_audio_play (fun _ _ => EspErr.ok) text language).2 =
          [AudioEvent.tone 800 200]) := by
  refine ⟨fun text => ?_, fun text => ?_, fun text language h1 h2 => ?_⟩
  · simp [embedded_audio_play, embedded_audio_play_loop, embedded_audio_generate_tone]
  · simp [embedded_audio_play, embedded_audio_play_loop, embedded_audio_generate_tone]
  · simp [embedded_audio_play, embedded_audio_play_loop, embedded_audio_generate_tone,
      h1, h2]

theorem dispatch_language_patterns_witness :
    (embedded_audio_play (fun _ _ => EspErr.ok) "BPM" "english").2 =
      [AudioEvent.tone 800 200] :=
  dispatch_language_patterns.2.2 "BPM" "english" (by decide) (by decide)

/-- Claim C9: the tone generator computes `44100 * duration / 1000` stereo sample
pairs — 13230 pairs for an 800 Hz, 300 ms request — and its envelope is a
linear fade: over the first tenth of the indices the scaled magnitude is
monotonically non-decreasing, over the last tenth monotonically
non-increasing, for every peak magnitude `a`. -/
theorem tone_count_and_envelope :
    tone_sample_count 300 = 13230 ∧
    (∀ n a i j : Nat, i ≤ j → j < n / 10 →
        tone_envelope n i a ≤ tone_envelope n j a) ∧
    (∀ n a i j : Nat, n - n / 10 ≤ i → i ≤ j →
        tone_envelope n j a ≤ tone_envelope n i a) := by
  refine ⟨by decide, fun n a i j hij hj => ?_, fun n a i j hi hij => ?_⟩
  · unfold tone_envelope
    rw [if_pos (by omega), if_pos hj]
    exact Nat.div_le_div_right (Nat.mul_le_mul_left a hij)
  · have h10 : n / 10 ≤ n - n / 10 := by omega
    unfold tone_envelope
    by_cases hj2 : n - n / 10 < j
    · rw [if_neg (by omega), if_pos hj2]
      by_cases hi2 : n - n / 10 < i
      · rw [if_neg (by omega), if_pos hi2]
        exact Nat.div_le_div_right (Nat.mul_le_mul_left a (by omega))
      · rw [if_neg (by omega), if_neg hi2]
        by_cases hz : n / 10 = 0
        · have hnj : n - j = 0 := by omega
          rw [hnj]
          simp
        · calc a * (n - j) / (n / 10) ≤ a * (n / 10) / (n / 10) :=
                Nat.div_le_div_right (Nat.mul_le_mul_left a (by omega))
            _ = a := Nat.mul_div_cancel a (by omega)
    · have hje : i = j := by omega
      subst hje
      exact le_rfl

theorem tone_count_and_envelope_witness :
    tone_envelope 13230 100 16000 ≤ tone_envelope 13230 101 16000 ∧
      tone_envelope 13230 11920 16000 ≤ tone_envelope 13230 11919 16000 :=
  ⟨tone_count_and_envelope.2.1 13230 16000 100 101 (by omega) (by decide),
   tone_count_and_envelope.2.2 13230 16000 11919 11920 (by decide) (by omega)⟩
